import Mathlib

/-!
Verification development for the MarketSeer LSTM forecasting engine
(`backend/app/services/lstm_service.py`).

The definitions below are a shallow embedding of the engine's data model and
operations, translated directly from the Python source:

* prices and bars are modelled as rationals (floats carry exact decimal
  values in every scenario considered here; NaN never arises in the inputs
  we quantify over),
* `numpy` standard deviations involve a square root, so quantities derived
  from them live in `ℝ` (`Real.sqrt` of a rational variance),
* wall-clock datetimes are modelled as seconds since an epoch midnight
  (`datetime.replace(hour=16, ...)` becomes arithmetic modulo 86400),
* calendar dates are day ordinals with `day % 7` as the weekday
  (0 = Monday, ..., 6 = Sunday), matching `pandas.Timestamp.weekday()`,
* the random draws of `np.random.normal` in the fallback forecaster are an
  explicit input list (the realized samples), and the trained network's
  single-step output is an explicit function parameter `net`; neither is
  otherwise interpreted,
* fallible code paths (Python exceptions caught and converted to
  `None` / `False` / `'training'` returns) become explicit outcome types.
-/

/-- One OHLCV bar: the row `[Open, High, Low, Close, Volume]` used by
`train_model` / `lstm_predict` (`hist[["Open","High","Low","Close","Volume"]].values`). -/
structure Bar where
  o : ℚ
  h : ℚ
  l : ℚ
  c : ℚ
  v : ℚ
deriving DecidableEq

instance : Inhabited Bar := ⟨⟨0, 0, 0, 0, 0⟩⟩

/-- `self.sequence_length = 60` — the look-back window `W`. -/
def sequence_length : ℕ := 60

/-- Fitted `MinMaxScaler(feature_range=(0,1))` state: per-channel data
minimum and maximum (`data_min_`, `data_max_`) for the 5 OHLCV channels. -/
structure Scaler where
  oLo : ℚ
  oHi : ℚ
  hLo : ℚ
  hHi : ℚ
  lLo : ℚ
  lHi : ℚ
  cLo : ℚ
  cHi : ℚ
  vLo : ℚ
  vHi : ℚ
deriving DecidableEq

/-- Minimum of a column (`f`) over a list of bars; 0 on the empty list
(sklearn raises on an empty fit, which callers guard against separately). -/
def colMin (f : Bar → ℚ) : List Bar → ℚ
  | [] => 0
  | r :: rs => rs.foldl (fun a b => min a (f b)) (f r)

/-- Maximum of a column (`f`) over a list of bars; 0 on the empty list. -/
def colMax (f : Bar → ℚ) : List Bar → ℚ
  | [] => 0
  | r :: rs => rs.foldl (fun a b => max a (f b)) (f r)

/-- `MinMaxScaler.fit(rows)`: records each channel's min and max. -/
def fitScaler (rows : List Bar) : Scaler :=
  { oLo := colMin (·.o) rows, oHi := colMax (·.o) rows
    hLo := colMin (·.h) rows, hHi := colMax (·.h) rows
    lLo := colMin (·.l) rows, lHi := colMax (·.l) rows
    cLo := colMin (·.c) rows, cHi := colMax (·.c) rows
    vLo := colMin (·.v) rows, vHi := colMax (·.v) rows }

/-- One-channel `MinMaxScaler.transform` with `feature_range = (0,1)`:
`(x - data_min) / (data_max - data_min)`, where sklearn's
`_handle_zeros_in_scale` replaces a zero range by 1. -/
def scale1 (lo hi x : ℚ) : ℚ :=
  (x - lo) / (if hi - lo = 0 then 1 else hi - lo)

/-- One-channel `MinMaxScaler.inverse_transform`:
`x * (data_max - data_min) + data_min` (zero range again replaced by 1). -/
def unscale1 (lo hi x : ℚ) : ℚ :=
  x * (if hi - lo = 0 then 1 else hi - lo) + lo

/-- `scaler.transform` applied to one bar (all 5 channels). -/
def transform (s : Scaler) (b : Bar) : Bar :=
  { o := scale1 s.oLo s.oHi b.o
    h := scale1 s.hLo s.hHi b.h
    l := scale1 s.lLo s.lHi b.l
    c := scale1 s.cLo s.cHi b.c
    v := scale1 s.vLo s.vHi b.v }

/-- Python slice `xs[-n:]` for `n ≥ 1`: the last `n` elements (all of `xs`
when `xs` is shorter than `n`). -/
def lastN (n : ℕ) (xs : List α) : List α := xs.drop (xs.length - n)

/-- `np.mean`: sum divided by length (the empty case never reaches numpy
in the guarded paths modelled here). -/
def npMean (xs : List ℚ) : ℚ := xs.sum / xs.length

/-- Population variance, the square of `np.std` (numpy's default `ddof=0`). -/
def pvariance (xs : List ℚ) : ℚ := npMean (xs.map fun x => (x - npMean xs) ^ 2)

/-- `np.std(xs)`: square root of the population variance. -/
noncomputable def np_std (xs : List ℚ) : ℝ := Real.sqrt (pvariance xs)

/-- Python's `round(x, 2)`. Mathlib's `round` rounds half away from the
half-point upward while Python rounds half to even; the two agree except at
exact two-decimal half-ties, which none of the inputs considered here hit. -/
noncomputable def round2 (x : ℝ) : ℝ := (round (x * 100) : ℤ) / 100

/-- `np.diff`: consecutive differences `xs[i+1] - xs[i]`. -/
def npDiff (xs : List ℚ) : List ℚ := List.zipWith (fun a b => b - a) xs xs.tail

/-- The residuals `np.array(actuals[-len(predictions):]) - np.array(predictions)`
from `calculate_prediction_interval`. -/
def residuals (actuals preds : List ℚ) : List ℚ :=
  List.zipWith (fun a p => a - p) (lastN preds.length actuals) preds

/-- `calculate_prediction_interval(symbol, actuals, predictions, confidence)`:
`z` is the value `scipy.stats.norm.ppf(1 - (1 - confidence)/2)` (≈ 1.96 at the
default confidence 0.95), taken here as a parameter since the engine only uses
it as a scalar multiplier.  Returns `[p - z*std, p + z*std]` for each
prediction, with `std` the standard deviation of the residuals. -/
noncomputable def calculate_prediction_interval (z : ℝ) (actuals preds : List ℚ) :
    List (ℝ × ℝ) :=
  let iv : ℝ := z * np_std (residuals actuals preds)
  preds.map fun p : ℚ => (((p : ℝ)) - iv, ((p : ℝ)) + iv)

/-- Result of `train_model`: `'training'` (symbol already in
`currently_training`), `False` (an exception was caught: empty data,
insufficient data, fit error), or `True`. -/
inductive TrainRes where
  | training
  | failed
  | ok
deriving DecidableEq

/-- `train_model(symbol)` control flow on a cleaned series `cleanHist`
(the rows of `hist[["Open","High","Low","Close","Volume"]].dropna()`):
returns `'training'` when the symbol is already being trained; raises (hence
returns `False`) when the cleaned data is empty or shorter than
`sequence_length + 10`; otherwise fits and saves the model (the numeric fit
itself is abstracted as succeeding). -/
def train_model (inProgress : Bool) (cleanHist : List Bar) : TrainRes :=
  if inProgress then .training
  else if cleanHist = [] then .failed
  else if cleanHist.length < sequence_length + 10 then .failed
  else .ok

/-- The normalized series used inside `prepare_data`:
`self.scaler.fit_transform(data)`. -/
def scaledRows (rows : List Bar) : List Bar := rows.map (transform (fitScaler rows))

/-- `prepare_data(data, sequence_length)`: for `i` in
`range(sequence_length, len(scaled_data))`, emit the pair
`(scaled_data[i-sequence_length:i], scaled_data[i, 3])` (index 3 = close).
Reindexed by `j = i - sequence_length`. -/
def prepareData (rows : List Bar) (w : ℕ) : List (List Bar × ℚ) :=
  (List.range ((scaledRows rows).length - w)).map fun j =>
    (((scaledRows rows).drop j).take w, ((scaledRows rows).getD (j + w) default).c)

/-- The first day strictly after `d` whose weekday is a weekday
(`weekday < 5`).  This is the effect of one iteration of the
`get_next_trading_days` loop (`current += 1 day` until `current.weekday() < 5`):
at most two days are skipped, and when `d+1` and `d+2` both fall on the
weekend, `d+3` is a Monday. -/
def nextWeekday (d : ℕ) : ℕ :=
  if (d + 1) % 7 < 5 then d + 1
  else if (d + 2) % 7 < 5 then d + 2
  else d + 3

/-- `get_next_trading_days(last_date, num_days)`: the next `num_days`
weekdays strictly after `last_date`, in order. -/
def get_next_trading_days (lastDate : ℕ) : ℕ → List ℕ
  | 0 => []
  | n + 1 =>
    let d := nextWeekday lastDate
    d :: get_next_trading_days d n

/-- One step of the walk-forward loop in `lstm_predict`: the model's scaled
close `p = net(seq)` is broadcast into the open/high/low/close channels of a
copy of the last bar (volume carried forward unchanged), the window slides by
one (`np.roll` then overwrite of the last row), and `p` is recorded. -/
def walkForward (net : List Bar → ℚ) : ℕ → List Bar → List ℚ
  | 0, _ => []
  | n + 1, seq =>
    let p := net seq
    let lastB := seq.getLastD default
    p :: walkForward net n (seq.tail ++ [⟨p, p, p, p, lastB.v⟩])

/-- The scaler actually used by `lstm_predict` for normalization and
denormalization: the persisted scaler is loaded into `self.scaler`
(`joblib.load`, line 353) and then immediately refit on the inference-time
features (`self.scaler.fit(features)`, line 364), so the resulting parameters
come from `features` alone. -/
def inference_scaler (loaded : Scaler) (features : List Bar) : Scaler :=
  fitScaler features

/-- The dictionary returned by a successful `lstm_predict`. -/
structure LstmResult where
  current_price : ℚ
  predicted_prices : List ℚ
  prediction_dates : List ℕ
  confidence : ℚ
  model : String
  prediction_interval : List (ℝ × ℝ)

/-- The success path of `lstm_predict` (everything after the model/scaler are
available): refit the scaler on the freshly fetched features, scale, walk
forward `days` steps from the last `sequence_length` scaled bars, denormalize
the predicted closes (via the dummy-rows trick, which touches only the close
channel), overwrite the first prediction with the last observed close
(continuity correction), and attach trading-day labels and the prediction
interval. -/
noncomputable def lstm_core (persisted : Scaler) (hist : List Bar) (lastDate : ℕ)
    (net : List Bar → ℚ) (z : ℝ) (days : ℕ) : LstmResult :=
  let features := hist
  let sc := inference_scaler persisted features
  let scaled := features.map (transform sc)
  let seq := lastN sequence_length scaled
  let preds := walkForward net days seq
  let lastClose := (features.getLastD default).c
  let predicted := (preds.map fun p => unscale1 sc.cLo sc.cHi p).set 0 lastClose
  { current_price := lastClose
    predicted_prices := predicted
    prediction_dates := get_next_trading_days lastDate days
    confidence := 4 / 5
    model := "LSTM-OHLCV"
    prediction_interval := calculate_prediction_interval z (features.map (·.c)) predicted }

/-- Outcome of `lstm_predict`: the `{"status": "training"}` dictionary, the
`None` return (an exception was logged), or a full result. -/
inductive LstmOutcome where
  | training
  | failure
  | result (r : LstmResult)

/-- The body of `lstm_predict` once a model is available, with its exception
points as guards: fewer than `sequence_length` rows make
`np.reshape(..., (1, sequence_length, 5))` raise (this also covers the empty
matrix, on which `scaler.fit` raises first); `days = 0` makes the
continuity-correction assignment `predicted_close[0] = ...` raise an
`IndexError`; and `days > len(features)` makes the residual broadcast inside
`calculate_prediction_interval` raise.  Every raise is caught and returned
as `None` (`.failure`). -/
noncomputable def lstm_attempt (persisted : Scaler) (hist : List Bar) (lastDate : ℕ)
    (net : List Bar → ℚ) (z : ℝ) (days : ℕ) : LstmOutcome :=
  if hist.length < sequence_length then .failure
  else if days = 0 then .failure
  else if hist.length < days then .failure
  else .result (lstm_core persisted hist lastDate net z days)

/-- `lstm_predict(symbol, days)`.  When the per-symbol model and scaler files
are absent it first calls `train_model`; a `'training'` result becomes the
`{"status": "training"}` return and a `False` result raises the caught
`ValueError "Failed to train model"` (`None`); otherwise the freshly fetched
history is forecast by `lstm_attempt`. -/
noncomputable def lstm_predict (artifactsExist : Bool) (persisted : Scaler)
    (inProgress : Bool) (trainHist hist : List Bar) (lastDate : ℕ)
    (net : List Bar → ℚ) (z : ℝ) (days : ℕ) : LstmOutcome :=
  if artifactsExist then lstm_attempt persisted hist lastDate net z days
  else
    match train_model inProgress trainHist with
    | .training => .training
    | .failed => .failure
    | .ok => lstm_attempt persisted hist lastDate net z days

/-- The dictionary returned by a successful `simple_moving_average_predict`
(note: it carries no `prediction_interval` key). -/
structure SmaResult where
  current_price : ℚ
  predicted_prices : List ℚ
  prediction_dates : List ℕ
  confidence : ℝ
  model : String

/-- The projection loop of the fallback forecaster:
`current_pred = max(current_pred + daily_change_avg * 0.5 + noise_i, last_price * 0.5)`,
one realized noise sample per step. -/
def smaWalk (cur lastPrice trend : ℚ) (noise : List ℚ) : ℕ → List ℚ
  | 0 => []
  | n + 1 =>
    let next := max (cur + trend * (1 / 2) + noise.headD 0) (lastPrice * (1 / 2))
    next :: smaWalk next lastPrice trend noise.tail n

/-- Success path of `simple_moving_average_predict(symbol, days, window)` on
the close-price series `closes` (with `hist.index[-1] = lastDate` and the
realized `np.random.normal` draws `noise`).  `daily_volatility` only scales
the noise distribution, so it does not appear: the realized draws are the
input. -/
noncomputable def sma_core (closes : List ℚ) (lastDate : ℕ) (noise : List ℚ)
    (days window : ℕ) : SmaResult :=
  let lastPrice := closes.getLastD 0
  let recent := lastN window closes
  let smaVal := npMean recent
  let volatility : ℝ := np_std recent / (npMean recent : ℝ)
  let dailyChangeAvg : ℚ := if 10 ≤ recent.length then npMean (npDiff (lastN 10 recent)) else 0
  { current_price := lastPrice
    predicted_prices := smaWalk smaVal lastPrice dailyChangeAvg noise days
    prediction_dates := get_next_trading_days lastDate days
    confidence := round2 (max (3 / 10) (min (7 / 10) (7 / 10 - volatility)))
    model := "SMA" }

/-- `simple_moving_average_predict`: `None` (after the caught `ValueError`)
when the fetched history is empty, otherwise the full result. -/
noncomputable def sma_predict (closes : List ℚ) (lastDate : ℕ) (noise : List ℚ)
    (days window : ℕ) : Option SmaResult :=
  if closes.isEmpty then none else some (sma_core closes lastDate noise days window)

/-- `should_retrain(symbol)`.  Wall-clock datetimes are seconds since an epoch
midnight; `now % 86400` is the time of day in seconds and `57600 = 16 * 3600`
is the 16:00 market close computed by `now.replace(hour=16, minute=0,
second=0, microsecond=0)`.  `modelFileExists` is `os.path.exists(self.model_path)`
(the single path the code checks); `info` is `model_info.get(symbol)` together
with its optional `'last_training'` entry.  `now - lt` uses truncated natural
subtraction, which agrees with Python's signed comparison
`(now - last_training) > timedelta(days=1)` also when `lt` is in the future. -/
def should_retrain (modelFileExists : Bool) (info : Option (Option ℕ)) (now : ℕ) : Bool :=
  if !modelFileExists then true
  else
    match info with
    | none => true
    | some none => true
    | some (some lt) => decide (86400 < now - lt) && decide (57600 < now % 86400)

/-- Position of one caller inside the admission prologue of `train_model`
(`if symbol in self.currently_training: return 'training'` followed by
`self.currently_training.add(symbol)`): about to run the membership check,
about to run the `add`, finished admitted, or finished with the `'training'`
early return. -/
inductive Phase where
  | toCheck
  | toAdd
  | doneAdmitted
  | doneAlready
deriving DecidableEq

/-- One CPython-atomic step of a caller: the membership check reads the shared
set; the `add` writes it.  Each set operation is atomic under the GIL, but the
check and the add are two separate operations with no lock held between them
on the `predict` → `train_model` path. -/
def stepThread (inSet : Bool) : Phase → Phase × Bool
  | .toCheck => if inSet then (.doneAlready, inSet) else (.toAdd, inSet)
  | .toAdd => (.doneAdmitted, true)
  | ph => (ph, inSet)

/-- Two concurrent callers of `train_model` for the same symbol:
`inSet` is `symbol in self.currently_training`, `t1`/`t2` are the two
callers' positions. -/
structure Sys where
  inSet : Bool
  t1 : Phase
  t2 : Phase
deriving DecidableEq

/-- Run one step of the chosen caller (`true` = first caller). -/
def stepSys (s : Sys) (who : Bool) : Sys :=
  if who then
    let r := stepThread s.inSet s.t1
    { s with t1 := r.1, inSet := r.2 }
  else
    let r := stepThread s.inSet s.t2
    { s with t2 := r.1, inSet := r.2 }

/-- Run a whole interleaving (a schedule of caller choices). -/
def runSched (s : Sys) (sched : List Bool) : Sys := sched.foldl stepSys s

/-- Ticker symbols as lists of character codes (Python `str`). -/
abbrev Ticker : Type := List ℕ

/-- One character of Python's `str.upper()` on ASCII ticker text:
lowercase letters 97–122 are shifted to uppercase, all else unchanged. -/
def upChar (n : ℕ) : ℕ := if 97 ≤ n ∧ n ≤ 122 then n - 32 else n

/-- `symbol.upper()`. -/
def pyUpper (s : Ticker) : Ticker := s.map upChar

/-- The spec's `model_used` field (`{"primary","fallback"}`), read off the
code's `"model"` tag (`"LSTM-OHLCV"` for the primary path, `"SMA"` for the
fallback). -/
def model_used (modelTag : String) : String :=
  if modelTag = "LSTM-OHLCV" then "primary" else "fallback"

/-- The collaborators `predict` consumes, keyed by symbol where the code
keys them by symbol: the watch-list (`popular_stocks`, uppercased on load),
the legacy global artifact checked by `should_retrain`, the per-symbol
training metadata and wall clock, the in-progress set snapshot, the cleaned
training series, the per-symbol artifact files and persisted scaler, the
inference-time history with its last index date, the trained network, the
z-score constant, and the fallback fetcher's close series, last date and
realized noise draws. -/
structure Env where
  popular : List Ticker
  modelFileExists : Bool
  lastTraining : Ticker → Option (Option ℕ)
  now : ℕ
  inProgress : Ticker → Bool
  trainHist : Ticker → List Bar
  artifactsExist : Ticker → Bool
  persistedScaler : Ticker → Scaler
  hist : Ticker → List Bar
  histLastDate : Ticker → ℕ
  net : Ticker → List Bar → ℚ
  z : ℝ
  fallbackCloses : Ticker → List ℚ
  fallbackLastDate : Ticker → ℕ
  noise : Ticker → List ℚ

/-- The four shapes a `predict` return value can take: the
`{"status": "training"}` dictionary, a full LSTM result, a full SMA fallback
result, or `None` (the fallback itself failed). -/
inductive PredictOutcome where
  | training
  | lstm (r : LstmResult)
  | sma (r : SmaResult)
  | noResult

/-- Lift the fallback's `Option` return into a `predict` outcome. -/
noncomputable def smaOrNone (o : Option SmaResult) : PredictOutcome :=
  o.elim .noResult .sma

/-- The fallback call `self.simple_moving_average_predict(symbol, days)`
as issued by `predict` (default `window=20`). -/
noncomputable def fallbackCall (env : Env) (s : Ticker) (days : ℕ) : PredictOutcome :=
  smaOrNone (sma_predict (env.fallbackCloses s) (env.fallbackLastDate s) (env.noise s) days 20)

/-- The `lstm_predict` call made by `predict`, with `None` routed to the
fallback and `{"status": "training"}` passed through. -/
noncomputable def lstmCall (env : Env) (s : Ticker) (days : ℕ) : PredictOutcome :=
  match lstm_predict (env.artifactsExist s) (env.persistedScaler s) (env.inProgress s)
      (env.trainHist s) (env.hist s) (env.histLastDate s) (env.net s) env.z days with
  | .training => .training
  | .failure => fallbackCall env s days
  | .result r => .lstm r

/-- `predict(symbol, days)`: uppercase the symbol; for watch-list symbols
retrain when stale (`if not train_result` only catches `False`: the truthy
string `'training'` falls through to `lstm_predict`, which re-encounters the
in-progress set and returns the training status), then serve the LSTM result
with SMA fallback; for all other symbols go straight to the fallback. -/
noncomputable def predict (env : Env) (symbol : Ticker) (days : ℕ) : PredictOutcome :=
  let s := pyUpper symbol
  if s ∈ env.popular then
    if should_retrain env.modelFileExists (env.lastTraining s) env.now then
      match train_model (env.inProgress s) (env.trainHist s) with
      | .failed => fallbackCall env s days
      | _ => lstmCall env s days
    else lstmCall env s days
  else fallbackCall env s days

/-! ## Helper lemmas -/

theorem upChar_idem (n : ℕ) : upChar (upChar n) = upChar n := by
  unfold upChar
  split_ifs <;> omega

theorem pyUpper_idem (s : Ticker) : pyUpper (pyUpper s) = pyUpper s := by
  induction s with
  | nil => rfl
  | cons a t ih =>
    simp only [pyUpper, List.map_cons] at *
    exact congrArg₂ _ (upChar_idem a) ih

theorem walkForward_length (net : List Bar → ℚ) (n : ℕ) (seq : List Bar) :
    (walkForward net n seq).length = n := by
  induction n generalizing seq with
  | zero => rfl
  | succ m ih => simp [walkForward, ih]

theorem nextWeekday_gt (d : ℕ) : d < nextWeekday d := by
  unfold nextWeekday
  split <;> [omega; skip]
  split <;> omega

theorem nextWeekday_lt5 (d : ℕ) : nextWeekday d % 7 < 5 := by
  unfold nextWeekday
  split
  · assumption
  · split
    · assumption
    · omega

theorem get_next_trading_days_length (lastDate n : ℕ) :
    (get_next_trading_days lastDate n).length = n := by
  induction n generalizing lastDate with
  | zero => rfl
  | succ m ih => simp [get_next_trading_days, ih]

theorem get_next_trading_days_mem (lastDate n : ℕ) :
    ∀ x ∈ get_next_trading_days lastDate n, lastDate < x ∧ x % 7 < 5 := by
  induction n generalizing lastDate with
  | zero => intro x hx; simp [get_next_trading_days] at hx
  | succ m ih =>
    intro x hx
    simp only [get_next_trading_days, List.mem_cons] at hx
    rcases hx with rfl | hx
    · exact ⟨nextWeekday_gt lastDate, nextWeekday_lt5 lastDate⟩
    · have := ih (nextWeekday lastDate) x hx
      exact ⟨lt_trans (nextWeekday_gt lastDate) this.1, this.2⟩

theorem get_next_trading_days_sorted (lastDate n : ℕ) :
    (get_next_trading_days lastDate n).Pairwise (· < ·) := by
  induction n generalizing lastDate with
  | zero => exact List.Pairwise.nil
  | succ m ih =>
    refine List.Pairwise.cons ?_ (ih (nextWeekday lastDate))
    intro x hx
    exact (get_next_trading_days_mem (nextWeekday lastDate) m x hx).1

theorem calculate_prediction_interval_length (z : ℝ) (actuals preds : List ℚ) :
    (calculate_prediction_interval z actuals preds).length = preds.length := by
  simp only [calculate_prediction_interval, List.length_map]

/-! ## Claim C3 -/

/-- Claim C3: `should_retrain(symbol)` is a pure function of the persisted
training metadata and the wall clock.  It returns `True` when the checked
model artifact is absent or the symbol has no (or an empty) training record,
and otherwise returns `True` exactly when `now - trained_at` exceeds one day
(86400 s) and `now` is strictly past the 16:00 cutoff (57600 s into the day).
In particular it is `False` for `trained_at` = today 10:00 with `now` = today
15:00, and `True` for `trained_at` = yesterday 10:00 with `now` = today
16:30. -/
theorem claim_C3 :
    (∀ info now, should_retrain false info now = true) ∧
    (∀ now, should_retrain true none now = true) ∧
    (∀ now, should_retrain true (some none) now = true) ∧
    (∀ lt now, should_retrain true (some (some lt)) now = true ↔
      (86400 < now - lt ∧ 57600 < now % 86400)) ∧
    should_retrain true (some (some 36000)) 54000 = false ∧
    should_retrain true (some (some 36000)) 145800 = true := by
  refine ⟨fun info now => rfl, fun now => rfl, fun now => rfl,
    fun lt now => ?_, by decide, by decide⟩
  simp [should_retrain]

/-! ## Claim C4 -/

/-- Claim C4 (refuted; the code contradicts its own docstring): the admission
check of `train_model` is the unsynchronized pair "membership test, then
`add`" on `currently_training`, reachable concurrently from two `predict`
callers without `retraining_lock`.  Under the interleaving in which both
callers run their membership test before either runs its `add` (first
conjunct), both finish admitted — no caller observes the `'training'` status —
whereas the claim (and the class docstring "Makes sure we don't train the
same model twice") promises exactly one admission.  A fully sequential
schedule (second conjunct) does admit exactly one caller, showing the race is
the only way the guarantee fails. -/
theorem claim_C4_theorem :
    runSched ⟨false, .toCheck, .toCheck⟩ [true, false, true, false] =
      ⟨true, .doneAdmitted, .doneAdmitted⟩ ∧
    runSched ⟨false, .toCheck, .toCheck⟩ [true, true, false, false] =
      ⟨true, .doneAdmitted, .doneAlready⟩ := by
  exact ⟨by decide, by decide⟩

/-! ## Claim C10 -/

/-- Claim C10: `predict` is case-insensitive in its symbol argument — the
symbol is uppercased on entry before the watch-list membership test and
before every downstream use, and uppercasing is idempotent, so
`predict(s, days)` and `predict(upper(s), days)` coincide for every
environment, symbol and horizon. -/
theorem claim_C10 (env : Env) (s : Ticker) (days : ℕ) :
    predict env s days = predict env (pyUpper s) days := by
  simp only [predict]
  rw [pyUpper_idem]

theorem getD_map_range (n j : ℕ) (f : ℕ → α) (d : α) (hj : j < n) :
    ((List.range n).map f).getD j d = f j := by
  rw [List.getD_eq_getElem?_getD, List.getElem?_map, List.getElem?_range hj]
  rfl

/-! ## Claim C5 -/

/-- Claim C5: with window `W = sequence_length = 60` and margin 10, training
on a cleaned series shorter than `W + 10` fails (the `ValueError` is caught,
`train_model` returns `False`); on a series of length `L ≥ W + 10`,
`prepare_data` emits exactly `L - W` (window, target) pairs, where the `j`-th
window is the `W` consecutive normalized bars starting at position `j` (over
all 5 OHLCV channels of `Bar`) and its target is the normalized close of the
bar at position `j + W`, the bar immediately following the window. -/
theorem claim_C5 (rows : List Bar) :
    (rows.length < sequence_length + 10 → train_model false rows = .failed) ∧
    (sequence_length + 10 ≤ rows.length →
      train_model false rows = .ok ∧
      (prepareData rows sequence_length).length = rows.length - sequence_length ∧
      (∀ j, j < rows.length - sequence_length →
        (prepareData rows sequence_length).getD j ([], 0) =
          (((scaledRows rows).drop j).take sequence_length,
            ((scaledRows rows).getD (j + sequence_length) default).c) ∧
        (((scaledRows rows).drop j).take sequence_length).length = sequence_length)) := by
  have hsc : (scaledRows rows).length = rows.length := by
    simp [scaledRows]
  constructor
  · intro hshort
    by_cases he : rows = []
    · simp [train_model, he]
    · simp [train_model, he, hshort]
  · intro hlong
    have hlong70 : 70 ≤ rows.length := hlong
    have hne : ¬rows = [] := by
      intro h
      rw [h] at hlong70
      simp at hlong70
    have hnshort : ¬rows.length < sequence_length + 10 := by
      show ¬rows.length < 70
      omega
    refine ⟨?_, ?_, ?_⟩
    · simp [train_model, hne, hnshort]
    · simp [prepareData, hsc]
    · intro j hj
      have hj60 : j < rows.length - 60 := hj
      constructor
      · unfold prepareData
        rw [getD_map_range]
        omega
      · rw [List.length_take, List.length_drop, hsc]
        show min 60 (rows.length - j) = 60
        omega

/-- Witness for claim C5 at concrete inputs: a cleaned series of 69 constant
bars fails training, while one of 70 bars trains and yields 10 windowed
pairs, the first window having the full 60 bars. -/
theorem claim_C5_witness :
    train_model false (List.replicate 69 (⟨1, 1, 1, 1, 1⟩ : Bar)) = .failed ∧
    train_model false (List.replicate 70 (⟨1, 1, 1, 1, 1⟩ : Bar)) = .ok ∧
    (prepareData (List.replicate 70 (⟨1, 1, 1, 1, 1⟩ : Bar)) sequence_length).length = 10 := by
  refine ⟨(claim_C5 _).1 (by simp [sequence_length]), ?_, ?_⟩
  · exact (((claim_C5 (List.replicate 70 ⟨1, 1, 1, 1, 1⟩)).2 (by simp [sequence_length])).1)
  · have h := (((claim_C5 (List.replicate 70 ⟨1, 1, 1, 1, 1⟩)).2 (by simp [sequence_length])).2).1
    simpa [sequence_length] using h

theorem cpi_getD (z : ℝ) (actuals preds : List ℚ) (i : ℕ) (hi : i < preds.length) :
    (calculate_prediction_interval z actuals preds).getD i (0, 0) =
      (((preds.getD i 0 : ℚ) : ℝ) - z * np_std (residuals actuals preds),
        ((preds.getD i 0 : ℚ) : ℝ) + z * np_std (residuals actuals preds)) := by
  unfold calculate_prediction_interval
  rw [List.getD_eq_getElem?_getD, List.getElem?_map, List.getElem?_eq_getElem hi,
    List.getD_eq_getElem?_getD, List.getElem?_eq_getElem hi]
  rfl

/-! ## Claim C7 -/

/-- Claim C7: on inputs with `len(actuals) ≥ len(predictions) ≥ 1` and a
nonnegative z-score (the code's `z = norm.ppf(1 - (1-0.95)/2) ≈ 1.96 ≥ 0`),
`calculate_prediction_interval` returns exactly the pairs
`(p - z*std, p + z*std)` over the predictions, where `std` is the standard
deviation of the elementwise residuals between the tail of the actuals and
the predictions; consequently each pair brackets its prediction
(`lower ≤ p ≤ upper`), all pairs share the same width, and zero residual
variance gives zero-width intervals. -/
theorem claim_C7 (z : ℝ) (actuals preds : List ℚ)
    (hz : 0 ≤ z) (hlen : 1 ≤ preds.length) (hle : preds.length ≤ actuals.length) :
    calculate_prediction_interval z actuals preds =
      preds.map (fun p : ℚ => (((p : ℝ)) - z * np_std (residuals actuals preds),
        ((p : ℝ)) + z * np_std (residuals actuals preds))) ∧
    (calculate_prediction_interval z actuals preds).length = preds.length ∧
    (∀ i, i < preds.length →
      ((calculate_prediction_interval z actuals preds).getD i (0, 0)).1 ≤
          ((preds.getD i 0 : ℚ) : ℝ) ∧
      ((preds.getD i 0 : ℚ) : ℝ) ≤
          ((calculate_prediction_interval z actuals preds).getD i (0, 0)).2) ∧
    (∀ i j, i < preds.length → j < preds.length →
      ((calculate_prediction_interval z actuals preds).getD i (0, 0)).2 -
          ((calculate_prediction_interval z actuals preds).getD i (0, 0)).1 =
        ((calculate_prediction_interval z actuals preds).getD j (0, 0)).2 -
          ((calculate_prediction_interval z actuals preds).getD j (0, 0)).1) ∧
    (pvariance (residuals actuals preds) = 0 →
      ∀ i, i < preds.length →
        ((calculate_prediction_interval z actuals preds).getD i (0, 0)).1 =
          ((calculate_prediction_interval z actuals preds).getD i (0, 0)).2) := by
  have hstd : 0 ≤ np_std (residuals actuals preds) := Real.sqrt_nonneg _
  have hiv : 0 ≤ z * np_std (residuals actuals preds) := mul_nonneg hz hstd
  refine ⟨rfl, calculate_prediction_interval_length z actuals preds, ?_, ?_, ?_⟩
  · intro i hi
    rw [cpi_getD z actuals preds i hi]
    dsimp only
    exact ⟨by linarith, by linarith⟩
  · intro i j hi hj
    rw [cpi_getD z actuals preds i hi, cpi_getD z actuals preds j hj]
    dsimp only
    ring
  · intro hvar i hi
    rw [cpi_getD z actuals preds i hi]
    dsimp only
    simp [np_std, hvar]

/-- Witness for claim C7 at the spec's own scenario: predictions
`[100, 101, 102]` against the actual tail `[99, 103, 101]` with a
nonnegative z (2): the interval list keeps its length and every pair
brackets its prediction. -/
theorem claim_C7_witness :
    (calculate_prediction_interval 2 [99, 103, 101] [100, 101, 102]).length = 3 ∧
    (∀ i, i < ([100, 101, 102] : List ℚ).length →
      ((calculate_prediction_interval 2 [99, 103, 101] [100, 101, 102]).getD i (0, 0)).1 ≤
          ((([100, 101, 102] : List ℚ).getD i 0 : ℚ) : ℝ) ∧
      ((([100, 101, 102] : List ℚ).getD i 0 : ℚ) : ℝ) ≤
          ((calculate_prediction_interval 2 [99, 103, 101] [100, 101, 102]).getD i (0, 0)).2) := by
  have h := claim_C7 2 [99, 103, 101] [100, 101, 102] (by norm_num) (by decide) (by decide)
  exact ⟨h.2.1, h.2.2.1⟩

theorem lstm_attempt_inv (ps : Scaler) (hist : List Bar) (ld : ℕ)
    (net : List Bar → ℚ) (z : ℝ) (days : ℕ) (r : LstmResult)
    (h : lstm_attempt ps hist ld net z days = .result r) :
    r = lstm_core ps hist ld net z days ∧
    sequence_length ≤ hist.length ∧ 1 ≤ days ∧ days ≤ hist.length := by
  unfold lstm_attempt at h
  split_ifs at h with h1 h2 h3
  all_goals first
    | exact LstmOutcome.noConfusion h
    | (injection h with h4
       exact ⟨h4.symm, Nat.le_of_not_lt h1, by omega, Nat.le_of_not_lt h3⟩)

theorem lstm_predict_inv (ae : Bool) (ps : Scaler) (ip : Bool)
    (th hist : List Bar) (ld : ℕ) (net : List Bar → ℚ) (z : ℝ) (days : ℕ)
    (r : LstmResult)
    (h : lstm_predict ae ps ip th hist ld net z days = .result r) :
    r = lstm_core ps hist ld net z days ∧
    sequence_length ≤ hist.length ∧ 1 ≤ days ∧ days ≤ hist.length := by
  unfold lstm_predict at h
  split at h
  · exact lstm_attempt_inv ps hist ld net z days r h
  · split at h
    · exact LstmOutcome.noConfusion h
    · exact LstmOutcome.noConfusion h
    · exact lstm_attempt_inv ps hist ld net z days r h

theorem lstm_core_pred_length (ps : Scaler) (hist : List Bar) (ld : ℕ)
    (net : List Bar → ℚ) (z : ℝ) (days : ℕ) :
    (lstm_core ps hist ld net z days).predicted_prices.length = days := by
  simp [lstm_core, walkForward_length]

theorem headD_set_zero (l : List ℚ) (a : ℚ) (hl : l ≠ []) :
    (l.set 0 a).headD 0 = a := by
  cases l with
  | nil => exact absurd rfl hl
  | cons x xs => rfl

theorem lstm_core_head (ps : Scaler) (hist : List Bar) (ld : ℕ)
    (net : List Bar → ℚ) (z : ℝ) (days : ℕ) (hdays : 1 ≤ days) :
    (lstm_core ps hist ld net z days).predicted_prices.headD 0 =
      (lstm_core ps hist ld net z days).current_price := by
  unfold lstm_core
  dsimp only
  apply headD_set_zero
  intro hnil
  have hlen := congrArg List.length hnil
  simp [walkForward_length] at hlen
  omega

/-! ## Claim C6 -/

/-- Claim C6: for every horizon `N ≥ 1`, a successful primary forecast
(`lstm_predict` returning a result) has `predicted_prices`,
`prediction_dates` and `prediction_interval` all of length exactly `N`, and
its `prediction_dates` are strictly increasing, all strictly after the last
observed bar's date, and never on a Saturday or Sunday (`weekday ≥ 5`). -/
theorem claim_C6 (ae : Bool) (ps : Scaler) (ip : Bool) (th hist : List Bar)
    (ld : ℕ) (net : List Bar → ℚ) (z : ℝ) (days : ℕ) (r : LstmResult)
    (hdays : 1 ≤ days)
    (h : lstm_predict ae ps ip th hist ld net z days = .result r) :
    r.predicted_prices.length = days ∧
    r.prediction_dates.length = days ∧
    r.prediction_interval.length = days ∧
    r.prediction_dates.Pairwise (· < ·) ∧
    (∀ d ∈ r.prediction_dates, ld < d ∧ d % 7 < 5) := by
  obtain ⟨hr, hlen, hd, hdl⟩ := lstm_predict_inv ae ps ip th hist ld net z days r h
  subst hr
  refine ⟨lstm_core_pred_length ps hist ld net z days, ?_, ?_, ?_, ?_⟩
  · simp [lstm_core, get_next_trading_days_length]
  · simp [lstm_core, calculate_prediction_interval_length, walkForward_length]
  · simp only [lstm_core]
    exact get_next_trading_days_sorted ld days
  · simp only [lstm_core]
    exact get_next_trading_days_mem ld days

/-- Witness for claim C6: a concrete successful primary forecast (an
artifact is present, sixty constant bars of history, horizon 1) whose result
satisfies all the shape properties. -/
theorem claim_C6_witness :
    (1:ℕ) ≤ 1 ∧
    ∃ r, lstm_predict true ⟨0, 0, 0, 0, 0, 0, 0, 0, 0, 0⟩ false []
        (List.replicate 60 ⟨1, 1, 1, 1, 1⟩) 0 (fun _ => 0) 0 1 = .result r ∧
      r.predicted_prices.length = 1 ∧ r.prediction_dates.length = 1 ∧
      r.prediction_interval.length = 1 ∧ r.prediction_dates.Pairwise (· < ·) ∧
      (∀ d ∈ r.prediction_dates, 0 < d ∧ d % 7 < 5) := by
  have hEq : lstm_predict true ⟨0, 0, 0, 0, 0, 0, 0, 0, 0, 0⟩ false []
      (List.replicate 60 ⟨1, 1, 1, 1, 1⟩) 0 (fun _ => 0) 0 1 =
      .result (lstm_core ⟨0, 0, 0, 0, 0, 0, 0, 0, 0, 0⟩
        (List.replicate 60 ⟨1, 1, 1, 1, 1⟩) 0 (fun _ => 0) 0 1) := by
    simp [lstm_predict, lstm_attempt, sequence_length]
  have hp := claim_C6 true ⟨0, 0, 0, 0, 0, 0, 0, 0, 0, 0⟩ false []
    (List.replicate 60 ⟨1, 1, 1, 1, 1⟩) 0 (fun _ => 0) 0 1 _ (by norm_num) hEq
  exact ⟨by norm_num, _, hEq, hp⟩

/-! ## Claim C1 -/

/-- Claim C1, amended: the continuity law holds on the primary path — every
successful `lstm_predict` result has `predicted_prices[0]` equal to
`current_price`, which is the last observed close of the inference history
(line 387 overwrites `predicted_close[0]` with `features[-1, 3]`).  The
fallback path does not apply this correction (see the counterexample). -/
theorem claim_C1 (ae : Bool) (ps : Scaler) (ip : Bool) (th hist : List Bar)
    (ld : ℕ) (net : List Bar → ℚ) (z : ℝ) (days : ℕ) (r : LstmResult)
    (h : lstm_predict ae ps ip th hist ld net z days = .result r) :
    r.predicted_prices.headD 0 = r.current_price ∧
    r.current_price = (hist.getLastD default).c := by
  obtain ⟨hr, hlen, hd, hdl⟩ := lstm_predict_inv ae ps ip th hist ld net z days r h
  subst hr
  refine ⟨lstm_core_head ps hist ld net z days hd, ?_⟩
  simp [lstm_core]

/-- Counterexample for claim C1 as frozen: on the fallback path the law
fails.  With closes `[100, 200]`, horizon 1 and a zero realized noise draw,
the fallback forecast succeeds, its `current_price` is the last close 200,
but its first predicted price is the 2-bar moving average 150. -/
theorem claim_C1_counterexample :
    sma_predict [100, 200] 0 [0] 1 20 = some (sma_core [100, 200] 0 [0] 1 20) ∧
    (sma_core [100, 200] 0 [0] 1 20).predicted_prices = [150] ∧
    (sma_core [100, 200] 0 [0] 1 20).current_price = 200 ∧
    ¬ ((sma_core [100, 200] 0 [0] 1 20).predicted_prices.headD 0 =
        (sma_core [100, 200] 0 [0] 1 20).current_price) := by
  refine ⟨rfl, ?_, by simp [sma_core], ?_⟩
  · norm_num [sma_core, smaWalk, npMean, lastN, npDiff, max_def]
  · norm_num [sma_core, smaWalk, npMean, lastN, npDiff, max_def]

/-- Witness for the amended claim C1: a concrete successful primary forecast
whose first predicted price equals the current price, the last observed
close. -/
theorem claim_C1_witness :
    ∃ r, lstm_predict true ⟨0, 0, 0, 0, 0, 0, 0, 0, 0, 0⟩ false []
        (List.replicate 60 ⟨3, 3, 3, 3, 3⟩) 0 (fun _ => 0) 0 2 = .result r ∧
      r.predicted_prices.headD 0 = r.current_price ∧
      r.current_price = ((List.replicate 60 (⟨3, 3, 3, 3, 3⟩ : Bar)).getLastD default).c := by
  have hEq : lstm_predict true ⟨0, 0, 0, 0, 0, 0, 0, 0, 0, 0⟩ false []
      (List.replicate 60 ⟨3, 3, 3, 3, 3⟩) 0 (fun _ => 0) 0 2 =
      .result (lstm_core ⟨0, 0, 0, 0, 0, 0, 0, 0, 0, 0⟩
        (List.replicate 60 ⟨3, 3, 3, 3, 3⟩) 0 (fun _ => 0) 0 2) := by
    simp [lstm_predict, lstm_attempt, sequence_length]
  exact ⟨_, hEq, claim_C1 true ⟨0, 0, 0, 0, 0, 0, 0, 0, 0, 0⟩ false []
    (List.replicate 60 ⟨3, 3, 3, 3, 3⟩) 0 (fun _ => 0) 0 2 _ hEq⟩

/-! ## Claim C2 -/

/-- Counterexample for claim C2 as frozen: the scaler used at inference is
not the persisted one.  With a persisted scaler fitted on training bars
ranging over [0, 2] and an inference series ranging over [0, 4],
`lstm_predict`'s refit (`self.scaler.fit(features)`, line 364) produces a
scaler different from the persisted one, and the bar `⟨4,4,4,4,4⟩` is
normalized differently by the two (1 versus 2 on every channel). -/
theorem claim_C2_counterexample :
    inference_scaler (fitScaler [⟨0, 0, 0, 0, 0⟩, ⟨2, 2, 2, 2, 2⟩])
        [⟨0, 0, 0, 0, 0⟩, ⟨4, 4, 4, 4, 4⟩] ≠
      fitScaler [⟨0, 0, 0, 0, 0⟩, ⟨2, 2, 2, 2, 2⟩] ∧
    transform (inference_scaler (fitScaler [⟨0, 0, 0, 0, 0⟩, ⟨2, 2, 2, 2, 2⟩])
        [⟨0, 0, 0, 0, 0⟩, ⟨4, 4, 4, 4, 4⟩]) ⟨4, 4, 4, 4, 4⟩ ≠
      transform (fitScaler [⟨0, 0, 0, 0, 0⟩, ⟨2, 2, 2, 2, 2⟩]) ⟨4, 4, 4, 4, 4⟩ := by
  constructor
  · simp [inference_scaler, fitScaler, colMin, colMax, Scaler.mk.injEq]
  · simp [inference_scaler, fitScaler, colMin, colMax, transform, scale1, Bar.mk.injEq]
    norm_num

/-- Claim C2, amended: at inference time the persisted scaler is loaded but
immediately refit on the series fetched for the prediction call, so (a) the
scaler actually applied equals the fit of the inference features, (b) the
forecast output does not depend on the persisted scaler at all, and (c) the
same refit scaler is used for normalization and denormalization, which are
mutually inverse on every channel with a nonzero data range — consistency
holds within the call, not with the training-time fit. -/
theorem claim_C2 :
    (∀ loaded feats, inference_scaler loaded feats = fitScaler feats) ∧
    (∀ p₁ p₂ : Scaler, ∀ hist ld net z days,
      lstm_core p₁ hist ld net z days = lstm_core p₂ hist ld net z days) ∧
    (∀ lo hi x : ℚ, hi - lo ≠ 0 → unscale1 lo hi (scale1 lo hi x) = x) := by
  refine ⟨fun _ _ => rfl, fun _ _ _ _ _ _ _ => rfl, ?_⟩
  intro lo hi x hne
  unfold scale1 unscale1
  rw [if_neg hne]
  field_simp

/-- Witness for the amended claim C2 at concrete inputs: the refit equality
and the within-call round trip on a channel with range 2. -/
theorem claim_C2_witness :
    inference_scaler (fitScaler [⟨0, 0, 0, 0, 0⟩, ⟨2, 2, 2, 2, 2⟩]) [⟨1, 1, 1, 1, 1⟩] =
      fitScaler [⟨1, 1, 1, 1, 1⟩] ∧
    ((2 : ℚ) - 0 ≠ 0 ∧ unscale1 0 2 (scale1 0 2 5) = 5) := by
  exact ⟨claim_C2.1 _ _, by norm_num, claim_C2.2.2 0 2 5 (by norm_num)⟩

/-! ## Claim C9 -/

theorem smaWalk_length (cur lp trend : ℚ) (noise : List ℚ) (n : ℕ) :
    (smaWalk cur lp trend noise n).length = n := by
  induction n generalizing cur noise with
  | zero => rfl
  | succ m ih => simp [smaWalk, ih]

theorem round2_clamp_mem (v : ℝ) :
    (3 / 10 : ℝ) ≤ round2 (max (3 / 10) (min (7 / 10) v)) ∧
    round2 (max (3 / 10) (min (7 / 10) v)) ≤ 7 / 10 := by
  set t := max (3 / 10 : ℝ) (min (7 / 10) v) with ht
  have h1 : (3 / 10 : ℝ) ≤ t := le_max_left _ _
  have h2 : t ≤ 7 / 10 := max_le (by norm_num) (min_le_left _ _)
  have hlb : (30 : ℤ) ≤ round (t * 100) := by
    rw [round_eq]
    exact Int.le_floor.mpr (by push_cast; linarith)
  have hub : round (t * 100) ≤ 70 := by
    rw [round_eq]
    have hfl := Int.floor_lt.mpr (show t * 100 + 1 / 2 < ((71 : ℤ) : ℝ) by push_cast; linarith)
    omega
  unfold round2
  constructor
  · have hc : ((30 : ℤ) : ℝ) ≤ ((round (t * 100) : ℤ) : ℝ) := Int.cast_le.mpr hlb
    push_cast at hc ⊢
    linarith
  · have hc : ((round (t * 100) : ℤ) : ℝ) ≤ ((70 : ℤ) : ℝ) := Int.cast_le.mpr hub
    push_cast at hc ⊢
    linarith

/-- Claim C9, amended: every fallback forecast's confidence equals
`round(clamp(0.7 - volatilityRatio, 0.3, 0.7), 2)` — the code rounds the
clamped value to two decimals before returning it — with
`volatilityRatio = std(window closes) / mean(window closes)`, and therefore
still always lies in [0.3, 0.7]; every primary-path forecast's confidence is
the constant 0.8, which lies in [0, 1]. -/
theorem claim_C9 :
    (∀ closes lastDate noise days window,
      (sma_core closes lastDate noise days window).confidence =
        round2 (max (3 / 10) (min (7 / 10)
          (7 / 10 - np_std (lastN window closes) / (npMean (lastN window closes) : ℝ)))) ∧
      (3 / 10 : ℝ) ≤ (sma_core closes lastDate noise days window).confidence ∧
      (sma_core closes lastDate noise days window).confidence ≤ 7 / 10) ∧
    (∀ ps hist ld net z days,
      (lstm_core ps hist ld net z days).confidence = 4 / 5 ∧
      (0 : ℚ) ≤ (lstm_core ps hist ld net z days).confidence ∧
      (lstm_core ps hist ld net z days).confidence ≤ 1) := by
  constructor
  · intro closes lastDate noise days window
    have hc : (sma_core closes lastDate noise days window).confidence =
        round2 (max (3 / 10) (min (7 / 10)
          (7 / 10 - np_std (lastN window closes) / (npMean (lastN window closes) : ℝ)))) := rfl
    have hm := round2_clamp_mem
      (7 / 10 - np_std (lastN window closes) / (npMean (lastN window closes) : ℝ))
    rw [hc]
    exact ⟨rfl, hm.1, hm.2⟩
  · intro ps hist ld net z days
    have hc : (lstm_core ps hist ld net z days).confidence = 4 / 5 := rfl
    rw [hc]
    exact ⟨rfl, by norm_num, by norm_num⟩

/-- Counterexample for claim C9 as frozen: the fallback confidence is the
rounded clamp, not the clamp itself.  On closes `[100, 104]` the window's
standard deviation is 2 and its mean 102, so the clamped value is
`0.7 - 2/102 = 347/510 ≈ 0.68039`, while the returned confidence is the
two-decimal rounding `0.68 = 17/25 ≠ 347/510`. -/
theorem claim_C9_counterexample :
    (sma_core [100, 104] 0 [] 1 20).confidence = 17 / 25 ∧
    max (3 / 10 : ℝ) (min (7 / 10)
        (7 / 10 - np_std (lastN 20 [100, 104]) / (npMean (lastN 20 [100, 104]) : ℝ))) =
      347 / 510 ∧
    (17 / 25 : ℝ) ≠ 347 / 510 := by
  have hv : pvariance (lastN 20 ([100, 104] : List ℚ)) = 4 := by
    norm_num [lastN, pvariance, npMean]
  have hstd : np_std (lastN 20 ([100, 104] : List ℚ)) = 2 := by
    rw [np_std, hv]
    rw [show ((4 : ℚ) : ℝ) = 2 ^ 2 by norm_num]
    exact Real.sqrt_sq (by norm_num)
  have hmean : npMean (lastN 20 ([100, 104] : List ℚ)) = 102 := by
    norm_num [lastN, npMean]
  have hclamp : max (3 / 10 : ℝ) (min (7 / 10)
      (7 / 10 - np_std (lastN 20 [100, 104]) / (npMean (lastN 20 [100, 104]) : ℝ))) =
      347 / 510 := by
    rw [hstd, hmean]
    norm_num [max_def, min_def]
  refine ⟨?_, hclamp, by norm_num⟩
  have hc : (sma_core [100, 104] 0 [] 1 20).confidence =
      round2 (max (3 / 10) (min (7 / 10)
        (7 / 10 - np_std (lastN 20 [100, 104]) / (npMean (lastN 20 [100, 104]) : ℝ)))) := rfl
  rw [hc, hclamp, round2]
  have hr : round ((347 / 510 : ℝ) * 100) = 68 := by
    rw [round_eq]
    rw [show (347 / 510 : ℝ) * 100 + 1 / 2 = 6991 / 102 by norm_num]
    apply Int.floor_eq_iff.mpr
    constructor <;> norm_num
  rw [hr]
  norm_num

/-! ## Claim C8 -/

/-- Claim C8: error-handling totality.  Every `predict` call returns exactly
one of: the explicit `{"status": "training"}` value, a complete LSTM result,
a complete SMA fallback result, or the hard `None` failure — never a
partially-formed result (first conjunct).  In particular (second conjunct),
for an untrained watch-list symbol whose cleaned training series has exactly
`W + margin - 1 = 69` bars, training fails with `InsufficientData` and the
caller receives the fallback result: its model tag is `"SMA"` (the spec's
`model_used = "fallback"`), with fully-formed price and date lists of the
requested horizon. -/
theorem claim_C8 :
    (∀ env s days,
      predict env s days = .training ∨
      (∃ r, predict env s days = .lstm r) ∨
      (∃ r, predict env s days = .sma r) ∨
      predict env s days = .noResult) ∧
    (∀ env (s : Ticker) (days : ℕ),
      pyUpper s ∈ env.popular →
      env.modelFileExists = false →
      env.inProgress (pyUpper s) = false →
      (env.trainHist (pyUpper s)).length = sequence_length + 10 - 1 →
      env.fallbackCloses (pyUpper s) ≠ [] →
      ∃ r, predict env s days = .sma r ∧
        r.model = "SMA" ∧ model_used r.model = "fallback" ∧
        r.predicted_prices.length = days ∧
        r.prediction_dates.length = days) := by
  constructor
  · intro env s days
    cases h : predict env s days with
    | training => exact Or.inl rfl
    | lstm r => exact Or.inr (Or.inl ⟨r, rfl⟩)
    | sma r => exact Or.inr (Or.inr (Or.inl ⟨r, rfl⟩))
    | noResult => exact Or.inr (Or.inr (Or.inr rfl))
  · intro env s days hpop hmf hip hth hfb
    have hsr : should_retrain env.modelFileExists (env.lastTraining (pyUpper s)) env.now
        = true := by
      rw [hmf]
      rfl
    have hne : env.trainHist (pyUpper s) ≠ [] := by
      intro hnil
      rw [hnil] at hth
      simp [sequence_length] at hth
    have hlt : (env.trainHist (pyUpper s)).length < sequence_length + 10 := by
      omega
    have htm : train_model (env.inProgress (pyUpper s)) (env.trainHist (pyUpper s))
        = .failed := by
      rw [hip]
      simp [train_model, hne, hlt]
    have hsma : sma_predict (env.fallbackCloses (pyUpper s))
        (env.fallbackLastDate (pyUpper s)) (env.noise (pyUpper s)) days 20 =
        some (sma_core (env.fallbackCloses (pyUpper s))
          (env.fallbackLastDate (pyUpper s)) (env.noise (pyUpper s)) days 20) := by
      unfold sma_predict
      rw [if_neg]
      simpa [List.isEmpty_iff] using hfb
    refine ⟨sma_core (env.fallbackCloses (pyUpper s))
      (env.fallbackLastDate (pyUpper s)) (env.noise (pyUpper s)) days 20, ?_, rfl, rfl, ?_, ?_⟩
    · simp only [predict]
      rw [if_pos hpop, hsr]
      simp only [if_true]
      rw [htm]
      simp only [fallbackCall, smaOrNone]
      rw [hsma]
      rfl
    · simp [sma_core, smaWalk_length]
    · simp [sma_core, get_next_trading_days_length]

/-- Witness for claim C8: a concrete environment with the watch-list symbol
"A" (code 65), no artifacts, a 69-bar cleaned training series and a one-bar
fallback series; `predict` returns the fallback result with the requested
horizon 3. -/
theorem claim_C8_witness :
    ∃ r, predict
      { popular := [[65]]
        modelFileExists := false
        lastTraining := fun _ => none
        now := 0
        inProgress := fun _ => false
        trainHist := fun _ => List.replicate 69 ⟨1, 1, 1, 1, 1⟩
        artifactsExist := fun _ => false
        persistedScaler := fun _ => ⟨0, 0, 0, 0, 0, 0, 0, 0, 0, 0⟩
        hist := fun _ => []
        histLastDate := fun _ => 0
        net := fun _ _ => 0
        z := 0
        fallbackCloses := fun _ => [100]
        fallbackLastDate := fun _ => 0
        noise := fun _ => [] } [65] 3 = .sma r ∧
      r.model = "SMA" ∧ model_used r.model = "fallback" ∧
      r.predicted_prices.length = 3 ∧ r.prediction_dates.length = 3 := by
  exact claim_C8.2 _ [65] 3 (by decide) rfl rfl (by simp [sequence_length]) (by decide)
